import Mathlib

/-!
Verification of the funnel query pipeline of this repository
(frontend/src/scenes/funnels/funnelLogic.ts and the funnel bar-graph
utilities).  Every definition below is a shallow embedding of the
corresponding TypeScript function; JavaScript numbers are modelled as
exact rationals extended with the IEEE special values where the code's
behaviour depends on them (division by zero, `|| 0` coercion), and
fallible code (array indexing that can hit `undefined`, thrown
exceptions) is modelled with `Option` / `Except`.  Collaborators that are
referenced but whose sources are not in this snapshot (insightLogic's
query-slot bookkeeping, the interval autocorrection helper) are modelled
from the specification and say so in their doc comments.
-/

set_option maxRecDepth 4096

/-- A JavaScript number as far as the metric helpers observe it: an exact
finite value, the two infinities, or `NaN`.  Finite arithmetic is exact
rational arithmetic; the claims settled here only exercise the
zero-denominator cases, where IEEE-754 behaviour is exact and agrees with
this model. -/
inductive JsNum : Type where
  | num (q : ℚ)
  | posInf
  | negInf
  | nan
deriving DecidableEq, Repr

namespace JsNum

/-- JavaScript truthiness of a number: `0`, `-0` and `NaN` are falsy,
everything else (infinities included) is truthy. -/
def truthy : JsNum → Bool
  | num q => q ≠ 0
  | posInf => true
  | negInf => true
  | nan => false

/-- Disjunction `a || b` on numbers: `a` when truthy, else `b`. -/
def jsOr (a b : JsNum) : JsNum := if a.truthy then a else b

/-- Division per IEEE-754: finite/finite is exact here (the claims only
use a zero denominator, where the float result is exactly `±∞` or
`NaN`). -/
def jsDiv : JsNum → JsNum → JsNum
  | nan, _ => nan
  | _, nan => nan
  | num a, num b =>
      if b = 0 then
        if a = 0 then nan else if a > 0 then posInf else negInf
      else num (a / b)
  | num _, posInf => num 0
  | num _, negInf => num 0
  | posInf, num b => if b ≥ 0 then posInf else negInf
  | negInf, num b => if b ≥ 0 then negInf else posInf
  | posInf, posInf => nan
  | posInf, negInf => nan
  | negInf, posInf => nan
  | negInf, negInf => nan

/-- Multiplication per IEEE-754 on the modelled values. -/
def jsMul : JsNum → JsNum → JsNum
  | nan, _ => nan
  | _, nan => nan
  | num a, num b => num (a * b)
  | num a, posInf => if a = 0 then nan else if a > 0 then posInf else negInf
  | num a, negInf => if a = 0 then nan else if a > 0 then negInf else posInf
  | posInf, num b => if b = 0 then nan else if b > 0 then posInf else negInf
  | negInf, num b => if b = 0 then nan else if b > 0 then negInf else posInf
  | posInf, posInf => posInf
  | posInf, negInf => negInf
  | negInf, posInf => negInf
  | negInf, negInf => posInf

end JsNum

/-- Embeds FunnelBarGraph.tsx `calcPercentage(numerator, denominator)`:
`(numerator / denominator) * 100 || 0`. -/
def calcPercentage (numerator denominator : JsNum) : JsNum :=
  ((numerator.jsDiv denominator).jsMul (JsNum.num 100)).jsOr (JsNum.num 0)

/-- One funnel stage (~/types `FunnelStep`), restricted to the fields the
funnel logic reads: display name, 0-based order, completed count, the
optional per-segment sub-steps (`breakdown`, an absent array modelled as
the empty list), the average conversion time (`null`/absent modelled as
`none`) and the people list.  The remaining fields of the TypeScript
interface are passed through untouched by every function modelled here. -/
inductive FunnelStep : Type where
  | mk (name : String) (order : Nat) (count : Int)
      (breakdown : List FunnelStep)
      (average_conversion_time : Option ℚ)
      (people : List String)

namespace FunnelStep

def name : FunnelStep → String
  | mk n _ _ _ _ _ => n

def order : FunnelStep → Nat
  | mk _ o _ _ _ _ => o

def count : FunnelStep → Int
  | mk _ _ c _ _ _ => c

def breakdown : FunnelStep → List FunnelStep
  | mk _ _ _ b _ _ => b

def average_conversion_time : FunnelStep → Option ℚ
  | mk _ _ _ _ a _ => a

def people : FunnelStep → List String
  | mk _ _ _ _ _ p => p

instance : Inhabited FunnelStep := ⟨mk ("") 0 0 [] none []⟩

end FunnelStep

/-- The step-reference mode (FunnelStepReferencePicker's
`FunnelStepReference`): percentages relative to the first step or to the
previous step. -/
inductive FunnelStepReference : Type where
  | total
  | previous
deriving DecidableEq, Repr

/-- Embeds FunnelBarGraph.tsx `getReferenceStep(steps, stepReference,
index)`.  The optional `index` argument is modelled as `Option Int`
(`none` = argument omitted); `!index` is true for an omitted index and
for `0`, and out-of-range array access yields `undefined`, modelled by
`Option`. -/
def getReferenceStep (steps : List FunnelStep) (stepReference : FunnelStepReference)
    (index : Option Int := none) : Option FunnelStep :=
  match index with
  | none => steps.get? 0
  | some i =>
      if i ≤ 0 then steps.get? 0
      else
        match stepReference with
        | FunnelStepReference.previous => steps.get? (i - 1).toNat
        | FunnelStepReference.total => steps.get? 0

/-- Embeds FunnelBarGraph.tsx `previousCount = previousStep?.count ?? 0`
where `previousStep = getReferenceStep(steps, FunnelStepReference.previous,
i)`. -/
def previousCount (steps : List FunnelStep) (i : Nat) : Int :=
  ((getReferenceStep steps FunnelStepReference.previous (some (i : Int))).map
    FunnelStep.count).getD 0

/-- Embeds FunnelBarGraph.tsx `dropoffCount = previousCount - step.count`
for the step rendered at position `i`. -/
def dropoffCount (steps : List FunnelStep) (step : FunnelStep) (i : Nat) : Int :=
  previousCount steps i - step.count

/-- Embeds the shared `visible` guard of the FunnelBarGraph.tsx popover
metrics "Dropped off" and "Dropoff rate (from step …)":
`step.order !== 0 && dropoffCount > 0` (the breakdown path uses the same
expression with `_dropoffCount`). -/
def dropoffMetricsVisible (step : FunnelStep) (dropoff : Int) : Bool :=
  decide (step.order ≠ 0) && decide (0 < dropoff)

/-- Embeds the FunnelBarGraph.tsx footer: the "dropped off" inspector
block is rendered only when `i > 0 && step.order > 0 && dropoffCount >
0`. -/
def footerDropoffVisible (steps : List FunnelStep) (step : FunnelStep) (i : Nat) : Bool :=
  decide (0 < i) && decide (0 < step.order) && decide (0 < dropoffCount steps step i)

/-- Embeds the FunnelBarGraph.tsx breakdown path:
`_previousCount = previousStep?.breakdown?.[index]?.count ?? 0` and
`_dropoffCount = _previousCount - breakdown.count` (an absent breakdown
array is modelled as the empty list, which indexes to `undefined` just the
same). -/
def sliceDropoffCount (previousStep : Option FunnelStep) (slice : FunnelStep) (k : Nat) : Int :=
  ((((previousStep.map FunnelStep.breakdown).getD []).get? k).map FunnelStep.count).getD 0
    - slice.count

/-- Rounding per JavaScript `Math.round`: half-way cases go toward
`+∞`. -/
def jsRound (q : ℚ) : Int := ⌊q + 1 / 2⌋

/-- Embeds the funnelLogic.ts reducer `conversionWindowInDays`, action
`setConversionWindowInDays`:
`days >= 1 && days <= 365 ? Math.round(days) : state`. -/
def setConversionWindowInDays (state : Int) (days : ℚ) : Int :=
  if 1 ≤ days ∧ days ≤ 365 then jsRound days else state

/-- Initial value of the funnelLogic.ts `conversionWindowInDays`
reducer. -/
def conversionWindowInit : Int := 14

/-- The reducer state after an arbitrary sequence of
`setConversionWindowInDays` dispatches, starting from the initial value. -/
def conversionWindowAfter (updates : List ℚ) : Int :=
  updates.foldl setConversionWindowInDays conversionWindowInit

/-- A `map` whose body can hit `undefined` (a JavaScript `TypeError`):
`none` models the thrown exception propagating out of the array method. -/
def mapOpt (f : α → Option β) : List α → Option (List β)
  | [] => some []
  | a :: l =>
      match f a with
      | none => none
      | some b => (mapOpt f l).map (fun bs => b :: bs)

/-- Embeds the spread of funnelLogic.ts `aggregateBreakdownResult`,
`{ ...step, count, breakdown, average_conversion_time: null, people: [] }`:
all other fields of `step` are kept. -/
def FunnelStep.withAggregate : FunnelStep → Int → List FunnelStep → FunnelStep
  | FunnelStep.mk n o _ _ _ _, total, slices => FunnelStep.mk n o total slices none []

/-- Embeds the step merge at the core of funnelLogic.ts
`aggregateBreakdownResult`:
`breakdownList[0].map((step, i) => ({ ...step,
  count: breakdownList.reduce((total, bs) => total += bs[i].count, 0),
  breakdown: breakdownList.reduce((all, bs) => [...all, bs[i]], []),
  average_conversion_time: null, people: [] }))`
with an empty `breakdownList` producing `[]`.  An out-of-range `bs[i]`
(`undefined.count` throws) is modelled by `none`. -/
def aggregateSteps (breakdownList : List (List FunnelStep)) : Option (List FunnelStep) :=
  match breakdownList with
  | [] => some []
  | first :: rest =>
      mapOpt
        (fun i =>
          match first.get? i, mapOpt (fun bs => bs.get? i) (first :: rest) with
          | some step, some slices =>
              some (step.withAggregate
                (slices.foldl (fun total s => total + s.count) 0) slices)
          | _, _ => none)
        (List.range first.length)

/-- A demo step used by the concrete witnesses below (order 0). -/
def demoStepA : FunnelStep := FunnelStep.mk ("demo step A") 0 10 [] none []

/-- A demo step used by the concrete witnesses below (order 1). -/
def demoStepB : FunnelStep := FunnelStep.mk ("demo step B") 1 6 [] none []

/-- Spec example segment 1: stage counts 10, 6, 2. -/
def demoSegment1 : List FunnelStep :=
  [FunnelStep.mk ("stage 1") 0 10 [] none [],
   FunnelStep.mk ("stage 2") 1 6 [] none [],
   FunnelStep.mk ("stage 3") 2 2 [] none []]

/-- Spec example segment 2: stage counts 5, 3, 1. -/
def demoSegment2 : List FunnelStep :=
  [FunnelStep.mk ("stage 1") 0 5 [] none [],
   FunnelStep.mk ("stage 2") 1 3 [] none [],
   FunnelStep.mk ("stage 3") 2 1 [] none []]

/-- The spec's two-segment aggregation example. -/
def demoBreakdownList : List (List FunnelStep) := [demoSegment1, demoSegment2]

/-- An entity of the funnel query (an event or action entry); passed
through untouched by `cleanFunnelParams`. -/
structure Entity where
  id : String
  type : String
  order : Nat
deriving DecidableEq, Repr

/-- A property-filter predicate; passed through untouched by
`cleanFunnelParams`. -/
structure PropertyFilter where
  key : String
  value : String
  type : String
deriving DecidableEq, Repr

/-- The query's filter shape (~/types `FilterType`), restricted to the
fields `cleanFunnelParams` names; `none` models an absent key, `some` a
present one (a present key holding a falsy value, such as an empty string
or `false`, is `some` of that value). -/
structure FilterType where
  date_from : Option String := none
  date_to : Option String := none
  actions : Option (List Entity) := none
  events : Option (List Entity) := none
  display : Option String := none
  interval : Option String := none
  properties : Option (List PropertyFilter) := none
  filter_test_accounts : Option Bool := none
  funnel_step : Option Int := none
  breakdown : Option String := none
  breakdown_type : Option String := none
  insight : Option String := none
deriving DecidableEq, Repr

/-- Coercion `value || undefined` on an optional string field: an absent
or falsy (empty) string becomes `undefined`; anything else is kept. -/
def jsOrUndef : Option String → Option String
  | none => none
  | some s => if s = "" then none else some s

/-- Modelled from the spec: the date/interval autocorrection collaborator
(`autocorrectInterval` of lib/utils, whose source is not part of this
repository snapshot).  Per spec §4.1/§6 it is a pure function of
`(date_from, date_to, requested_interval)` returning the requested
granularity when it is consistent with the date range and otherwise the
coarsest granularity consistent with it; the exact policy table is left
abstract, requiring only that the coarsest granularity is itself
consistent. -/
structure IntervalPolicy where
  consistent : Option String → Option String → String → Bool
  coarsest : Option String → Option String → String
  coarsest_consistent : ∀ df dt, consistent df dt (coarsest df dt) = true

/-- Modelled from the spec: `correctInterval(dateFrom, dateTo,
requestedInterval) -> correctedInterval` under an abstract
`IntervalPolicy`; an absent (or degenerate) requested interval is replaced
by the coarsest consistent granularity. -/
def correctInterval (P : IntervalPolicy) (df dt : Option String) :
    Option String → String
  | some s => if P.consistent df dt s then s else P.coarsest df dt
  | none => P.coarsest df dt

/-- The string value of `ViewType.FUNNELS`. -/
def funnelsInsight : String := "FUNNELS"

/-- Embeds funnelLogic.ts `cleanFunnelParams`.  The object literal first
spreads the whole input (`...filters`); the conditional re-spreads
(`...(filters.X ? { X: filters.X } : {})`) then re-add the very same value
when it is truthy, so every such field is simply passed through — present
but falsy values (and present-but-empty collections, which are truthy in
JavaScript) included.  Finally `interval`, `breakdown`, `breakdown_type`
and `insight` are overridden. -/
def cleanFunnelParams (P : IntervalPolicy) (filters : FilterType) : FilterType :=
  { filters with
    interval := some (correctInterval P filters.date_from filters.date_to filters.interval)
    breakdown := jsOrUndef filters.breakdown
    breakdown_type := jsOrUndef filters.breakdown_type
    insight := some funnelsInsight }

/-- A concrete interval policy (everything consistent, coarsest granularity
`day`) used for the closed counterexample and witnesses. -/
def trivialPolicy : IntervalPolicy where
  consistent := fun _ _ _ => true
  coarsest := fun _ _ => "day"
  coarsest_consistent := fun _ _ => rfl

/-- Embeds funnelLogic.ts `const SECONDS_TO_POLL = 3 * 60`. -/
def SECONDS_TO_POLL : Nat := 3 * 60

/-- The body of the `api/insight/funnel` response's `result` field as the
poll loop observes it: while the computation is running the remote answers
`{ result: { loading: true } }`, so the in-progress flag lives at
`result.result.loading`. -/
structure InsightResult where
  loading : Bool := false
  steps : List FunnelStep := []

/-- The whole `api/insight/funnel` response object.  `loading` models
reading a `loading` property on the response root (as the post-loop
timeout guard `if (result.loading)` does); the still-computing responses
carry their flag nested inside `result`, not at the root, so there this
field is the falsy `undefined`, i.e. `false`. -/
structure ApiFunnelResponse where
  result : InsightResult
  loading : Bool := false
  last_refresh : Option String := none

/-- The thrown `{ status: 0, statusText: 'Funnel timeout' }` object, and
remote HTTP failures generally. -/
structure ApiError where
  status : Nat
  statusText : String
deriving DecidableEq, Repr

/-- Observable poller activity: a network request (with or without the
`refresh=true` query flag) or a `wait(ms)` sleep. -/
inductive PollEvent : Type where
  | request (refresh : Bool)
  | wait (ms : Nat)
deriving DecidableEq, Repr

/-- Embeds the funnelLogic.ts `pollFunnel` loop,
`while (result.result.loading && (now - start) / 1000 < SECONDS_TO_POLL)`.
Here `remote k` is the response to the `(k+1)`-th request; network
round-trips are instantaneous in this model and each iteration sleeps
exactly `wait() = 1000` ms, so the elapsed-time guard
`elapsedMs / 1000 < SECONDS_TO_POLL` is tracked by the equivalent count
`remaining = SECONDS_TO_POLL - elapsedMs / 1000` of polls still allowed
(`remaining = 0` exactly when the time guard fails).  Returns the final
response together with the trace of waits and retry requests. -/
def pollLoop (remote : Nat → ApiFunnelResponse) :
    Nat → ApiFunnelResponse → Nat → ApiFunnelResponse × List PollEvent
  | 0, current, _ => (current, [])
  | remaining + 1, current, reqIdx =>
      if current.result.loading then
        let r := pollLoop remote remaining (remote reqIdx) (reqIdx + 1)
        (r.1, PollEvent.wait 1000 :: PollEvent.request false :: r.2)
      else (current, [])

/-- Embeds funnelLogic.ts `pollFunnel`: the first request carries the
refresh flag (`'api/insight/funnel/?' + (refresh ? 'refresh=true' : '')`),
the retries (`api.create('api/insight/funnel', bodyParams)`) never do;
after the loop, `if (result.loading) throw { status: 0, statusText:
'Funnel timeout' }`, reading `loading` on the response root. -/
def pollFunnelRun (remote : Nat → ApiFunnelResponse) (refresh : Bool) :
    Except ApiError ApiFunnelResponse × List PollEvent :=
  let first := remote 0
  let r := pollLoop remote SECONDS_TO_POLL first 1
  let trace := PollEvent.request refresh :: r.2
  if r.1.loading then
    (Except.error { status := 0, statusText := "Funnel timeout" }, trace)
  else (Except.ok r.1, trace)

/-- A retry trace is well spaced: every retry request is immediately
preceded by the fixed 1000 ms sleep and never carries the refresh flag. -/
def retriesWellFormed : List PollEvent → Bool
  | [] => true
  | PollEvent.wait ms :: PollEvent.request r :: rest =>
      (ms == 1000) && (r == false) && retriesWellFormed rest
  | _ => false

/-- Number of requests in a poller trace. -/
def requestCount (trace : List PollEvent) : Nat :=
  trace.countP fun e =>
    match e with
    | PollEvent.request _ => true
    | PollEvent.wait _ => false

/-- A mock remote that reports loading for the first 2 requests and done
from the 3rd on (the spec's poller example). -/
def mockRemote (k : Nat) : ApiFunnelResponse :=
  if k < 2 then { result := { loading := true } }
  else { result := { loading := false, steps := demoSegment1 },
         last_refresh := some ("2021-04-01T00:00:00Z") }

/-- A remote that never finishes: every response is the still-computing
`{ result: { loading: true } }` (which carries no root-level `loading`
property). -/
def alwaysLoadingRemote (_ : Nat) : ApiFunnelResponse :=
  { result := { loading := true } }

/-- Modelled from the spec: the query-slot state kept by the insightLogic
collaborator (its source is not part of this repository snapshot).  A
query slot is started, then finalized exactly once as successfully ended
or as failed with a human-readable cause (§3 QueryResult, §7). -/
inductive SlotState : Type where
  | running
  | success (lastRefresh : Option String)
  | failed (message : String)
deriving DecidableEq, Repr

/-- The caller observes failure only through the status field. -/
def SlotState.isFailed : SlotState → Bool
  | SlotState.failed _ => true
  | _ => false

/-- Modelled from the spec: a human-readable cause string derived from the
thrown object (§7: "an attached message"). -/
def ApiError.message (e : ApiError) : String := e.statusText

/-- Modelled from the spec: insightLogic's `endQuery(queryId, view,
lastRefresh, exception?)` — finalizes the slot as `failed` with the
exception's message when an exception is passed, else as successfully
ended with the server freshness timestamp. -/
def endQuery (lastRefresh : Option String) (exception : Option ApiError) : SlotState :=
  match exception with
  | some e => SlotState.failed e.message
  | none => SlotState.success lastRefresh

/-- Embeds the error-handling skeleton of funnelLogic.ts `loadResults`:
the `try { result = await pollFunnel(params) } catch (e)` block calls
`endQuery(queryId, ViewType.FUNNELS, null, e)` and returns `[]`; on
success `endQuery(queryId, ViewType.FUNNELS, result.last_refresh)` runs
FIRST, and only then — when a breakdown is requested and clickhouse
features are on — is `aggregateBreakdownResult` applied, whose failure
(a `TypeError` on a too-short segment) escapes the already-finished slot.
`pollOutcome` abstracts the `pollFunnel` call; `breakdownData` the
segmented data handed to the aggregator (in the source a static fixture
import, not part of this snapshot). -/
def loadResults (pollOutcome : Except ApiError ApiFunnelResponse)
    (hasBreakdown clickhouseFeatures : Bool)
    (breakdownData : List (List FunnelStep)) :
    SlotState × Except ApiError (List FunnelStep) :=
  match pollOutcome with
  | Except.error e => (endQuery none (some e), Except.ok [])
  | Except.ok result =>
      let slot := endQuery result.last_refresh none
      if hasBreakdown && clickhouseFeatures then
        match aggregateSteps breakdownData with
        | some agg => (slot, Except.ok agg)
        | none =>
            (slot, Except.error { status := 0, statusText := "TypeError: undefined step" })
      else (slot, Except.ok result.result.steps)

/-- A successfully polled response used by the C6 counterexample. -/
def demoOkResponse : ApiFunnelResponse :=
  { result := { loading := false, steps := demoSegment1 },
    last_refresh := some ("2021-04-01T00:00:00Z") }

/-- Segments of mismatched lengths: aggregation hits `undefined` and
throws. -/
def mismatchedBreakdown : List (List FunnelStep) :=
  [demoSegment1, [FunnelStep.mk ("stage 1") 0 5 [] none []]]

/-!  Theorems.  -/

theorem setConversionWindow_bounds {s : Int} (hs1 : 1 ≤ s) (hs2 : s ≤ 365) (d : ℚ) :
    1 ≤ setConversionWindowInDays s d ∧ setConversionWindowInDays s d ≤ 365 := by
  unfold setConversionWindowInDays
  split
  · rename_i h
    unfold jsRound
    constructor
    · have h1 : ((1 : Int) : ℚ) ≤ d + 1 / 2 := by push_cast; linarith [h.1]
      exact Int.le_floor.mpr h1
    · have h2 : d + 1 / 2 < ((365 : Int) : ℚ) + 1 := by push_cast; linarith [h.2]
      exact Int.floor_le_iff.mpr h2
  · exact ⟨hs1, hs2⟩

theorem conversionWindow_foldl_bounds (updates : List ℚ) :
    ∀ s : Int, 1 ≤ s → s ≤ 365 →
      1 ≤ updates.foldl setConversionWindowInDays s ∧
        updates.foldl setConversionWindowInDays s ≤ 365 := by
  induction updates with
  | nil => intro s h1 h2; exact ⟨h1, h2⟩
  | cons d rest ih =>
      intro s h1 h2
      have hb := setConversionWindow_bounds h1 h2 d
      simpa using ih (setConversionWindowInDays s d) hb.1 hb.2

/-- C10: the `conversionWindowInDays` reducer keeps its state an integer in
`[1, 365]`: an in-range `days` is rounded to the nearest integer
(`Math.round`, within `1/2` of the input), any out-of-range `days` leaves
the state unchanged, and from the initial value `14` every state reachable
by a sequence of `setConversionWindowInDays` dispatches satisfies the
bounds. -/
theorem conversionWindow_invariant :
    (∀ (state : Int) (days : ℚ), ¬(1 ≤ days ∧ days ≤ 365) →
        setConversionWindowInDays state days = state) ∧
    (∀ (state : Int) (days : ℚ), 1 ≤ days → days ≤ 365 →
        setConversionWindowInDays state days = jsRound days ∧
          |(jsRound days : ℚ) - days| ≤ 1 / 2) ∧
    (∀ updates : List ℚ,
        1 ≤ conversionWindowAfter updates ∧ conversionWindowAfter updates ≤ 365) := by
  refine ⟨?_, ?_, ?_⟩
  · intro state days h
    simp [setConversionWindowInDays, h]
  · intro state days h1 h2
    refine ⟨by simp [setConversionWindowInDays, h1, h2], ?_⟩
    rw [abs_le]
    have hle : (⌊days + 1 / 2⌋ : ℚ) ≤ days + 1 / 2 := Int.floor_le _
    have hlt : days + 1 / 2 < (⌊days + 1 / 2⌋ : ℚ) + 1 := Int.lt_floor_add_one _
    constructor
    · simp only [jsRound]
      linarith
    · simp only [jsRound]
      linarith
  · intro updates
    exact conversionWindow_foldl_bounds updates conversionWindowInit
      (by norm_num [conversionWindowInit]) (by norm_num [conversionWindowInit])

/-- Witness for C10: the out-of-range update `500` is ignored, the in-range
update `3.6` is rounded to `4`, and a concrete dispatch sequence stays in
`[1, 365]`. -/
theorem conversionWindow_invariant_witness :
    setConversionWindowInDays 14 500 = 14 ∧
      setConversionWindowInDays 14 (18 / 5) = jsRound (18 / 5) ∧
      jsRound (18 / 5) = 4 ∧
      (1 ≤ conversionWindowAfter [500, 18 / 5, 0] ∧
        conversionWindowAfter [500, 18 / 5, 0] ≤ 365) :=
  ⟨conversionWindow_invariant.1 14 500 (by norm_num),
    (conversionWindow_invariant.2.1 14 (18 / 5) (by norm_num) (by norm_num)).1,
    by norm_num [jsRound],
    conversionWindow_invariant.2.2 [500, 18 / 5, 0]⟩

/-- C2 counterexample: `calcPercentage(1, 0)` is `Infinity`, not `0` — the
`|| 0` guard only converts the `NaN` arising from `0 / 0`; `1 / 0` is
`Infinity`, which is truthy and passes through. -/
theorem calcPercentage_one_zero_is_posInf :
    calcPercentage (JsNum.num 1) (JsNum.num 0) = JsNum.posInf ∧
      calcPercentage (JsNum.num 1) (JsNum.num 0) ≠ JsNum.num 0 := by
  constructor
  · norm_num [calcPercentage, JsNum.jsDiv, JsNum.jsMul, JsNum.jsOr, JsNum.truthy]
  · norm_num [calcPercentage, JsNum.jsDiv, JsNum.jsMul, JsNum.jsOr, JsNum.truthy]
    exact fun h => JsNum.noConfusion h

/-- C2 (amended): with a zero basis count, `calcPercentage` returns `0`
exactly when the count is `0` (the `0 / 0` `NaN` is coerced to `0` by
`|| 0`); a positive count yields `Infinity` and a negative count
`-Infinity`.  It never returns `NaN`, `undefined`, or throws (it is a
total function into the modelled numbers). -/
theorem calcPercentage_zero_basis (q : ℚ) :
    calcPercentage (JsNum.num q) (JsNum.num 0) =
      if q = 0 then JsNum.num 0
      else if 0 < q then JsNum.posInf else JsNum.negInf := by
  rcases lt_trichotomy q 0 with h | h | h
  · have h0 : q ≠ 0 := ne_of_lt h
    have h2 : ¬q > 0 := not_lt.mpr (le_of_lt h)
    simp [calcPercentage, JsNum.jsDiv, JsNum.jsMul, JsNum.jsOr, JsNum.truthy, h0, h2]
  · simp [calcPercentage, JsNum.jsDiv, JsNum.jsMul, JsNum.jsOr, JsNum.truthy, h]
  · have h0 : q ≠ 0 := ne_of_gt h
    simp [calcPercentage, JsNum.jsDiv, JsNum.jsMul, JsNum.jsOr, JsNum.truthy, h0, h]

/-- C5: for a non-empty step list, `getReferenceStep` returns `steps[0]`
under TOTAL mode for every index, `steps[index - 1]` under PREVIOUS mode
for `index ≥ 1`, and `steps[0]` for an omitted or `≤ 0` index regardless
of mode. -/
theorem getReferenceStep_spec (steps : List FunnelStep) (hne : steps ≠ []) :
    (∃ s0, steps.get? 0 = some s0) ∧
    (∀ i : Int, getReferenceStep steps FunnelStepReference.total (some i) = steps.get? 0) ∧
    (∀ i : Int, 1 ≤ i →
        getReferenceStep steps FunnelStepReference.previous (some i) =
          steps.get? (i - 1).toNat) ∧
    (∀ (m : FunnelStepReference) (i : Int), i ≤ 0 →
        getReferenceStep steps m (some i) = steps.get? 0) ∧
    (∀ m : FunnelStepReference, getReferenceStep steps m none = steps.get? 0) := by
  refine ⟨?_, ?_, ?_, ?_, ?_⟩
  · cases steps with
    | nil => exact absurd rfl hne
    | cons a l => exact ⟨a, rfl⟩
  · intro i
    by_cases h : i ≤ 0 <;> simp [getReferenceStep, h]
  · intro i hi
    have h : ¬i ≤ 0 := by omega
    simp [getReferenceStep, h]
  · intro m i h
    simp [getReferenceStep, h]
  · intro m
    simp [getReferenceStep]

/-- Witness for C5 on a concrete two-step list: PREVIOUS mode with index 0
resolves to `steps[0]`, and with index 1 to `steps[0]` as well (the step
before step 1). -/
theorem getReferenceStep_spec_witness :
    getReferenceStep [demoStepA, demoStepB] FunnelStepReference.previous (some 0) =
        some demoStepA ∧
      getReferenceStep [demoStepA, demoStepB] FunnelStepReference.previous (some 1) =
        some demoStepA :=
  ⟨((getReferenceStep_spec [demoStepA, demoStepB] (by simp)).2.2.2.1
      FunnelStepReference.previous 0 (by norm_num)).trans rfl,
    ((getReferenceStep_spec [demoStepA, demoStepB] (by simp)).2.2.1 1 (by norm_num)).trans rfl⟩

/-- C9: the drop-off count and drop-off rate are suppressed whenever the
stage's `order` is `0` or the drop-off count is `≤ 0` — both for the
popover metrics (plain and per-breakdown-slice, which share the guard
`step.order !== 0 && dropoffCount > 0`) and for the footer's "dropped off"
block; in particular a stage of order `0` never shows a drop-off count,
whatever the counts are. -/
theorem dropoff_suppressed :
    (∀ (step : FunnelStep) (d : Int), step.order = 0 ∨ d ≤ 0 →
        dropoffMetricsVisible step d = false) ∧
    (∀ (steps : List FunnelStep) (step : FunnelStep) (i : Nat),
        step.order = 0 ∨ dropoffCount steps step i ≤ 0 →
        footerDropoffVisible steps step i = false) := by
  constructor
  · intro step d h
    rcases h with h | h
    · simp [dropoffMetricsVisible, h]
    · simp [dropoffMetricsVisible, not_lt.mpr h]
  · intro steps step i h
    rcases h with h | h
    · simp [footerDropoffVisible, h]
    · simp [footerDropoffVisible, not_lt.mpr h]

/-- Witness for C9: a stage of order `0` suppresses the drop-off metrics
even with a large positive drop-off input, and the footer block is hidden
for it too. -/
theorem dropoff_suppressed_witness :
    dropoffMetricsVisible demoStepA 999 = false ∧
      footerDropoffVisible [demoStepA, demoStepB] demoStepA 0 = false :=
  ⟨dropoff_suppressed.1 demoStepA 999 (Or.inl rfl),
    dropoff_suppressed.2 [demoStepA, demoStepB] demoStepA 0 (Or.inl rfl)⟩

theorem mapOpt_eq_some_map {f : α → Option β} {g : α → β} :
    ∀ {l : List α}, (∀ a ∈ l, f a = some (g a)) → mapOpt f l = some (l.map g)
  | [], _ => rfl
  | a :: l, h => by
      have ha : f a = some (g a) := h a (List.mem_cons_self a l)
      have hl : mapOpt f l = some (l.map g) :=
        mapOpt_eq_some_map fun x hx => h x (List.mem_cons_of_mem a hx)
      simp [mapOpt, ha, hl]

theorem FunnelStep.withAggregate_fields (s : FunnelStep) (t : Int) (sl : List FunnelStep) :
    (s.withAggregate t sl).count = t ∧ (s.withAggregate t sl).breakdown = sl ∧
      (s.withAggregate t sl).average_conversion_time = none ∧
      (s.withAggregate t sl).people = [] := by
  cases s with
  | mk n o c b a p => exact ⟨rfl, rfl, rfl, rfl⟩

theorem foldl_add_count (slices : List FunnelStep) :
    ∀ acc : Int, slices.foldl (fun total s => total + s.count) acc =
      acc + (slices.map FunnelStep.count).sum := by
  induction slices with
  | nil => intro acc; simp
  | cons s rest ih =>
      intro acc
      simp only [List.foldl_cons, List.map_cons, List.sum_cons, ih (acc + s.count)]
      ring

theorem get?_eq_some_getD :
    ∀ (l : List α) (i : Nat), i < l.length → ∀ d : α, l.get? i = some (l.getD i d)
  | [], i, h, _ => absurd h (by simp)
  | a :: l, 0, _, d => rfl
  | a :: l, i + 1, h, d => get?_eq_some_getD l i (by simpa using h) d

/-- C3: aggregating a non-empty list of equal-length per-segment step
sequences yields one merged step per stage `i`, whose `count` is the sum of
the segments' stage-`i` counts, whose `breakdown` is exactly the segments'
stage-`i` steps in input segment order, and whose average conversion time
and people list are reset. -/
theorem aggregateSteps_spec (bl : List (List FunnelStep)) (n : Nat)
    (hne : bl ≠ []) (hlen : ∀ seg ∈ bl, seg.length = n) :
    ∃ steps, aggregateSteps bl = some steps ∧ steps.length = n ∧
      ∀ i, i < n →
        ∃ merged, steps.get? i = some merged ∧
          merged.count =
            ((bl.map fun seg => seg.getD i default).map FunnelStep.count).sum ∧
          merged.breakdown = (bl.map fun seg => seg.getD i default) ∧
          merged.average_conversion_time = none ∧
          merged.people = [] := by
  cases bl with
  | nil => exact absurd rfl hne
  | cons first rest =>
      have hfirst : first.length = n := hlen first (List.mem_cons_self _ _)
      refine ⟨(List.range first.length).map (fun i =>
        (first.getD i default).withAggregate
          (((first :: rest).map fun seg => seg.getD i default).foldl
            (fun total s => total + s.count) 0)
          ((first :: rest).map fun seg => seg.getD i default)), ?_, ?_, ?_⟩
      · unfold aggregateSteps
        apply mapOpt_eq_some_map
        intro i hi
        have hi2 : i < first.length := List.mem_range.mp hi
        have h1 : first.get? i = some (first.getD i default) :=
          get?_eq_some_getD first i hi2 default
        have h2 : mapOpt (fun bs => bs.get? i) (first :: rest) =
            some ((first :: rest).map fun seg => seg.getD i default) := by
          apply mapOpt_eq_some_map
          intro seg hseg
          exact get?_eq_some_getD seg i (by rw [hlen seg hseg, ← hfirst]; exact hi2) default
        simp only [h1, h2]
      · simp [hfirst]
      · intro i hi
        refine ⟨(first.getD i default).withAggregate
          (((first :: rest).map fun seg => seg.getD i default).foldl
            (fun total s => total + s.count) 0)
          ((first :: rest).map fun seg => seg.getD i default), ?_, ?_, ?_, ?_, ?_⟩
        · rw [List.get?_map, List.get?_range (by rw [hfirst]; exact hi)]
          rfl
        · rw [((first.getD i default).withAggregate_fields _ _).1, foldl_add_count]
          exact zero_add _
        · exact ((first.getD i default).withAggregate_fields _ _).2.1
        · exact ((first.getD i default).withAggregate_fields _ _).2.2.1
        · exact ((first.getD i default).withAggregate_fields _ _).2.2.2

/-- Witness for C3: on the spec's example (two segments with counts
`[10, 6, 2]` and `[5, 3, 1]`) aggregation yields stages with counts
`[15, 9, 3]`, each carrying 2 breakdown slices. -/
theorem aggregateSteps_spec_witness :
    (∃ steps, aggregateSteps demoBreakdownList = some steps ∧ steps.length = 3 ∧
      ∀ i, i < 3 →
        ∃ merged, steps.get? i = some merged ∧
          merged.count =
            ((demoBreakdownList.map fun seg => seg.getD i default).map FunnelStep.count).sum ∧
          merged.breakdown = (demoBreakdownList.map fun seg => seg.getD i default) ∧
          merged.average_conversion_time = none ∧
          merged.people = []) ∧
    (aggregateSteps demoBreakdownList).map (fun steps => steps.map FunnelStep.count) =
      some [15, 9, 3] ∧
    (aggregateSteps demoBreakdownList).map
        (fun steps => steps.map fun s => s.breakdown.length) =
      some [2, 2, 2] :=
  ⟨aggregateSteps_spec demoBreakdownList 3 (by simp [demoBreakdownList])
      (by intro seg hseg; fin_cases hseg <;> rfl),
    rfl, rfl⟩

theorem correctInterval_idem (P : IntervalPolicy) (df dt : Option String)
    (i : Option String) :
    correctInterval P df dt (some (correctInterval P df dt i)) =
      correctInterval P df dt i := by
  cases i with
  | none => simp [correctInterval, P.coarsest_consistent]
  | some s =>
      cases hc : P.consistent df dt s with
      | true => simp [correctInterval, hc]
      | false => simp [correctInterval, hc, P.coarsest_consistent]

theorem jsOrUndef_idem (o : Option String) : jsOrUndef (jsOrUndef o) = jsOrUndef o := by
  cases o with
  | none => rfl
  | some s =>
      by_cases h : s = "" <;> simp [jsOrUndef, h]

/-- C4 counterexample: the inputs `{ events: [] }` and `{}` differ only in
the `events` field being present-as-empty vs absent, yet their normalized
outputs differ — the empty collection is passed through, not omitted. -/
theorem cleanFunnelParams_empty_vs_absent :
    cleanFunnelParams trivialPolicy { events := some [] } ≠
        cleanFunnelParams trivialPolicy {} ∧
      (cleanFunnelParams trivialPolicy { events := some [] }).events = some [] ∧
      (cleanFunnelParams trivialPolicy {}).events = none := by
  refine ⟨?_, rfl, rfl⟩
  intro h
  have h2 : (some [] : Option (List Entity)) = none := congrArg FilterType.events h
  exact Option.noConfusion h2

/-- C4 (amended): `cleanFunnelParams` passes every field of the input
through unchanged apart from its four overrides, so absent-vs-empty
collection differences survive it; only the segmentation fields
`breakdown` and `breakdown_type` are coerced with `|| undefined`, so two
inputs differing only in an absent vs falsy-empty segmentation key
normalize to structurally identical outputs. -/
theorem cleanFunnelParams_breakdown_empty_absent (P : IntervalPolicy) (x : FilterType) :
    cleanFunnelParams P { x with breakdown := some ("") } =
        cleanFunnelParams P { x with breakdown := none } ∧
      cleanFunnelParams P { x with breakdown_type := some ("") } =
        cleanFunnelParams P { x with breakdown_type := none } := by
  constructor <;> simp [cleanFunnelParams, jsOrUndef]

/-- C8: normalization is idempotent, for every autocorrection policy
satisfying the spec's description and every input. -/
theorem cleanFunnelParams_idempotent (P : IntervalPolicy) (x : FilterType) :
    cleanFunnelParams P (cleanFunnelParams P x) = cleanFunnelParams P x := by
  simp [cleanFunnelParams, correctInterval_idem, jsOrUndef_idem]

theorem pollLoop_retries_wf (remote : Nat → ApiFunnelResponse) :
    ∀ (remaining : Nat) (current : ApiFunnelResponse) (reqIdx : Nat),
      retriesWellFormed (pollLoop remote remaining current reqIdx).2 = true := by
  intro remaining
  induction remaining with
  | zero => intro current reqIdx; rfl
  | succ n ih =>
      intro current reqIdx
      by_cases h : current.result.loading
      · simp [pollLoop, h, retriesWellFormed, ih]
      · simp [pollLoop, h, retriesWellFormed]

/-- C7: only the first request of a poll run may carry the refresh flag:
every retry in the trace is immediately preceded by the fixed 1000 ms
sleep and is sent without the flag; and on the mock remote that reports
loading for exactly the first 2 requests the run resolves successfully
after exactly 3 requests, with a wait before each retry. -/
theorem pollFunnel_polling_spec :
    (∀ (remote : Nat → ApiFunnelResponse) (refresh : Bool),
      ∃ rest, (pollFunnelRun remote refresh).2 = PollEvent.request refresh :: rest ∧
        retriesWellFormed rest = true) ∧
    ((pollFunnelRun mockRemote true).2 =
        [PollEvent.request true, PollEvent.wait 1000, PollEvent.request false,
          PollEvent.wait 1000, PollEvent.request false] ∧
      requestCount (pollFunnelRun mockRemote true).2 = 3 ∧
      (pollFunnelRun mockRemote true).1 = Except.ok (mockRemote 2) ∧
      (mockRemote 2).result.loading = false) := by
  constructor
  · intro remote refresh
    refine ⟨(pollLoop remote SECONDS_TO_POLL (remote 0) 1).2, ?_, ?_⟩
    · unfold pollFunnelRun
      by_cases h : (pollLoop remote SECONDS_TO_POLL (remote 0) 1).1.loading <;> simp [h]
    · exact pollLoop_retries_wf remote SECONDS_TO_POLL (remote 0) 1
  · exact ⟨rfl, rfl, rfl, rfl⟩

/-- C1 (code bug): when the remote still reports loading after the full
180 s poll budget, `pollFunnel` does NOT throw the timeout error — the
loop tests `result.result.loading` but the timeout guard tests
`result.loading`, a different field that the still-loading responses do
not set — so the still-loading (partial) response object is returned as a
success after 181 requests. -/
theorem pollFunnel_timeout_returns_partial :
    (pollFunnelRun alwaysLoadingRemote true).1 =
        Except.ok { result := { loading := true } } ∧
      ({ result := { loading := true } } : ApiFunnelResponse).result.loading = true ∧
      requestCount (pollFunnelRun alwaysLoadingRemote true).2 = SECONDS_TO_POLL + 1 :=
  ⟨rfl, rfl, rfl⟩

/-- C6 counterexample: an aggregation failure (mismatched segment lengths)
happens after the slot has already been finalized as successful, so this
failure path does NOT set the `failed` state — the slot stays `success`
while the loader run ends in a thrown error. -/
theorem loadResults_aggregation_error_not_failed :
    (loadResults (Except.ok demoOkResponse) true true mismatchedBreakdown).1 =
        SlotState.success (some ("2021-04-01T00:00:00Z")) ∧
      (loadResults (Except.ok demoOkResponse) true true mismatchedBreakdown).1.isFailed
        = false ∧
      (loadResults (Except.ok demoOkResponse) true true mismatchedBreakdown).2 =
        Except.error { status := 0, statusText := "TypeError: undefined step" } :=
  ⟨rfl, rfl, rfl⟩

/-- C6 (amended): failures of the poll itself (timeout, remote error) are
recovered at the query-slot boundary — the slot is finalized `failed`
with a human-readable message and the loader returns an empty result —
but an aggregation failure occurs only after the slot has already been
finalized as successful, so it propagates without ever setting the
`failed` state. -/
theorem loadResults_error_states :
    (∀ (e : ApiError) (hb ch : Bool) (data : List (List FunnelStep)),
        (loadResults (Except.error e) hb ch data).1 = SlotState.failed e.message ∧
        (loadResults (Except.error e) hb ch data).2 = Except.ok []) ∧
    (∀ (resp : ApiFunnelResponse) (hb ch : Bool) (data : List (List FunnelStep)),
        (loadResults (Except.ok resp) hb ch data).1 = SlotState.success resp.last_refresh) := by
  constructor
  · intro e hb ch data
    exact ⟨rfl, rfl⟩
  · intro resp hb ch data
    by_cases h : (hb && ch) = true
    · cases hagg : aggregateSteps data <;> simp [loadResults, endQuery, h, hagg]
    · simp [loadResults, endQuery, h]
